import Mathlib

/-!
Verification development for the fn-posts secure contact-exchange subsystem.

The definitions below are a shallow embedding of the Go source:
`internal/domain/contact_exchange.go`, `internal/domain/encryption_service.go`,
`internal/service/contact_exchange_service.go`, the contact-exchange HTTP
handler, the Postgres key repository and the Postgres contact-exchange
repository.  Machine-level details that live outside this repository
(the Go standard library: `crypto/rsa`, `crypto/sha256`, `encoding/base64`,
`encoding/json`, and the Postgres engine) are modelled by their documented
contracts; everything that is code of this repository (field copies, control
flow, status checks, SQL filters) is translated statement by statement.

Time is modelled as an explicit `Int` parameter `now` standing for the value
of `time.Now()` at the moment the Go code reads the clock.  Randomness
(`crypto/rand`) is modelled by explicit freshness parameters.
-/

namespace FnPosts

/-- Identifier of a user (a UUID in the source, `domain.UserID`).  `IsZero`
corresponds to the nil UUID; `Equals` is plain equality on the UUID value. -/
structure UserID where
  val : Nat
deriving DecidableEq, Repr

/-- Identifier of a post (`domain.PostID`). -/
structure PostID where
  val : Nat
deriving DecidableEq, Repr

/-- Identifier of a contact-exchange request (`domain.ContactExchangeRequestID`). -/
structure RequestID where
  val : Nat
deriving DecidableEq, Repr

/-- Status of a contact exchange request (`domain.ContactExchangeStatus`):
the string enum pending | approved | denied | expired. -/
inductive ContactExchangeStatus where
  | pending
  | approved
  | denied
  | expired
deriving DecidableEq, Repr

/-- Type of contact sharing approved (`domain.ContactExchangeApprovalType`):
full_contact | platform_message | limited_contact. -/
inductive ContactExchangeApprovalType where
  | fullContact
  | platformMessage
  | limitedContact
deriving DecidableEq, Repr

/-- Required verification method (`domain.VerificationMethod`). -/
inductive VerificationMethod where
  | photoProof
  | securityQuestion
  | adminApproval
deriving DecidableEq, Repr

/-- Reason for a contact exchange denial (`domain.DenialReason`). -/
inductive DenialReason where
  | notOwner
  | insufficientVerification
  | suspiciousRequest
  | postResolved
  | userPreference
  | other
deriving DecidableEq, Repr

/-- Kind of encryption operation recorded in the audit log
(`domain.EncryptionOperation`): encrypt | decrypt | token_create |
token_validate | key_rotation. -/
inductive EncryptionOperation where
  | encrypt
  | decrypt
  | tokenCreate
  | tokenValidate
  | keyRotation
deriving DecidableEq, Repr

/-- Status of a post (`domain.PostStatus`): active | resolved | expired | deleted. -/
inductive PostStatus where
  | active
  | resolved
  | expired
  | deleted
deriving DecidableEq, Repr

/-- Limitations on contact sharing (`domain.SharingRestrictions`). -/
structure SharingRestrictions where
  expiresAfterHours : Int
  singleUse : Bool
  platformMediated : Bool
deriving DecidableEq, Repr

/-- Unencrypted contact information (`domain.ContactInfo`).  The `Email`,
`Phone` and `Message` pointers of the Go struct become `Option String`;
a `none` models a nil pointer, which `encoding/json` omits (`omitempty`). -/
structure ContactInfo where
  email : Option String
  phone : Option String
  preferredMethod : String
  message : Option String
  restrictions : Option SharingRestrictions
deriving DecidableEq, Repr

/-- Payload map built by `GenerateContactToken`: contact_info, expires_at
(unix), created_at (unix) and a random nonce. -/
structure TokenPayload where
  contactInfo : ContactInfo
  expiresAt : Int
  createdAt : Int
  nonce : Nat
deriving DecidableEq, Repr

/-- Model of a Go `[]byte` value produced by `json.Marshal` in this
subsystem.  Only two shapes of plaintext are ever serialized and encrypted
by the source: a `ContactInfo` (in `EncryptContactInfo`) and the token
payload map (in `GenerateContactToken`).  `json.Marshal` followed by
`json.Unmarshal` of the same Go type is the identity for these structs,
which the constructor-tagged representation realises; the byte length of
the serialized form is computed by `Bytes.len` below. -/
inductive Bytes where
  | jsonContactInfo (c : ContactInfo)
  | jsonTokenPayload (p : TokenPayload)
deriving DecidableEq, Repr

/-- Model of an RSA-OAEP ciphertext produced by `rsa.EncryptOAEP` under the
4096-bit key pair identified by `keyFp` (the fingerprint deterministically
identifies the key material in this model).  OAEP decryption recovers `data`
exactly under the matching private key and fails under any other key. -/
structure Ciphertext where
  keyFp : Nat
  data : Bytes
deriving DecidableEq, Repr

/-- Model of a Go `string` value flowing through the subsystem, tagged by
provenance: ordinary text (`lit`), the base64 encoding of an RSA ciphertext
(`b64Cipher`), the base64 encoding of the SHA-256 digest of a ciphertext
(`sha256b64`), and the rendered fingerprint of a key (`fpStr`).  Distinct
constructors model the collision freeness of SHA-256 and the injectivity of
base64: a base64-encoded 4096-bit ciphertext never coincides with a digest
string or a plain contact string. -/
inductive GoStr where
  | lit (s : String)
  | b64Cipher (ct : Ciphertext)
  | sha256b64 (ct : Ciphertext)
  | fpStr (material : Nat)
deriving DecidableEq, Repr

/-- Encrypted contact information (`domain.EncryptedContactInfo`).  All five
fields mirror the Go struct; the string-typed fields hold `GoStr` values so
that both ciphertext and plaintext contents can be represented. -/
structure EncryptedContactInfo where
  email : Option GoStr
  phone : Option GoStr
  preferredMethod : GoStr
  message : Option GoStr
  sharingRestrictions : Option SharingRestrictions
deriving DecidableEq, Repr

/-- Verification requirements (`domain.VerificationDetails`). -/
structure VerificationDetails where
  method : VerificationMethod
  question : Option String
  requirements : List String
deriving DecidableEq, Repr

/-- Encrypted, time-limited contact exchange token (`domain.ContactToken`). -/
structure ContactToken where
  token : GoStr
  keyFingerprint : GoStr
  expiresAt : Int
  createdAt : Int
  integrityHash : GoStr
deriving DecidableEq, Repr

/-- RSA key pair with metadata (`domain.EncryptionKey`).  The PEM-encoded
private and public key material of the Go struct is identified by the
`fingerprint` value: in the model a key pair is determined by its
fingerprint, which is a deterministic injective hash of the public key. -/
structure EncryptionKey where
  id : Nat
  fingerprint : Nat
  isActive : Bool
  createdAt : Int
  expiresAt : Option Int
deriving DecidableEq, Repr

/-- Audit record for an encryption operation (`domain.EncryptionAuditLog`).
The row id and timestamp filled in by `LogOperation` and the client
metadata are not inspected by any claim and are elided. -/
structure AuditEntry where
  operation : EncryptionOperation
  userId : UserID
  requestId : Option RequestID
  keyFingerprint : GoStr
  success : Bool
  errorMessage : Option GoStr
deriving DecidableEq, Repr

/-- Error values returned by the subsystem.  Each constructor corresponds to
one distinct `fmt.Errorf` site (or standard-library error) of the source;
the `%w` wrapping chains of the Go code are collapsed to the innermost
error that decides the control flow. -/
inductive GoErr where
  | invalidContactExchangeStatus (from_ to_ : ContactExchangeStatus)
  | contactExchangeExpired
  | canOnlyClearExpired
  | requestNotFound
  | postNotFound
  | unauthorizedDecrypt
  | requestNotApproved
  | requestExpired
  | noContactInfoAvailable
  | messageTooLong
  | noEncryptedData
  | invalidBase64
  | decryptionFailed
  | unmarshalFailed
  | integrityCheckFailed
  | tokenExpired
  | keyNotFound
  | noActiveKey
  | nilActiveKey
  | canOnlyCancelPending
  | onlyRequesterCanCancel
deriving DecidableEq, Repr

/-- Short message text for an error, standing for Go `err.Error()` when an
error string is stored in an audit record. -/
def GoErr.message : GoErr → GoStr
  | .invalidContactExchangeStatus _ _ => .lit "invalid contact exchange status"
  | .contactExchangeExpired => .lit "contact exchange request has expired"
  | .canOnlyClearExpired => .lit "can only clear contact info for expired requests"
  | .requestNotFound => .lit "contact exchange request not found"
  | .postNotFound => .lit "post not found"
  | .unauthorizedDecrypt => .lit "unauthorized to decrypt contact information"
  | .requestNotApproved => .lit "contact exchange request not approved"
  | .requestExpired => .lit "contact exchange request has expired"
  | .noContactInfoAvailable => .lit "no contact information available"
  | .messageTooLong => .lit "message too long for RSA key size"
  | .noEncryptedData => .lit "no encrypted data found"
  | .invalidBase64 => .lit "failed to decode encrypted data"
  | .decryptionFailed => .lit "failed to decrypt"
  | .unmarshalFailed => .lit "failed to deserialize"
  | .integrityCheckFailed => .lit "token integrity check failed"
  | .tokenExpired => .lit "contact token has expired"
  | .keyNotFound => .lit "encryption key not found"
  | .noActiveKey => .lit "no active encryption key found"
  | .nilActiveKey => .lit "nil active key"
  | .canOnlyCancelPending => .lit "Can only cancel pending requests"
  | .onlyRequesterCanCancel => .lit "Only the requester can cancel this request"

/-- Secure contact exchange request aggregate
(`domain.ContactExchangeRequest`).  Timestamps are `Int` instants. -/
structure ContactExchangeRequest where
  id : RequestID
  postId : PostID
  requesterUserId : UserID
  ownerUserId : UserID
  status : ContactExchangeStatus
  message : Option String
  verificationRequired : Bool
  verificationDetails : Option VerificationDetails
  approvalType : Option ContactExchangeApprovalType
  denialReason : Option DenialReason
  denialMessage : Option GoStr
  encryptedContactInfo : Option EncryptedContactInfo
  expiresAt : Int
  createdAt : Int
  updatedAt : Int
deriving DecidableEq, Repr

/-- IsExpired: `time.Now().After(c.expiresAt)`, that is, strictly past the
stored expiry instant. -/
def ContactExchangeRequest.isExpired (c : ContactExchangeRequest) (now : Int) : Bool :=
  now > c.expiresAt

/-- CanBeApproved: pending and not expired. -/
def ContactExchangeRequest.canBeApproved (c : ContactExchangeRequest) (now : Int) : Bool :=
  c.status = .pending && !(c.isExpired now)

/-- CanBeDenied: pending. -/
def ContactExchangeRequest.canBeDenied (c : ContactExchangeRequest) : Bool :=
  c.status = .pending

/-- Approve transition of the aggregate.  The Go method mutates the receiver
in place and returns an error; the model returns the error value together
with the post-call state of the receiver, so an error paired with the
unchanged record states that the call did not mutate the aggregate. -/
def ContactExchangeRequest.approve (c : ContactExchangeRequest)
    (approvalType : ContactExchangeApprovalType)
    (encryptedContactInfo : Option EncryptedContactInfo) (now : Int) :
    Except GoErr Unit × ContactExchangeRequest :=
  if c.status ≠ .pending then
    (.error (.invalidContactExchangeStatus c.status .approved), c)
  else if c.isExpired now then
    (.error .contactExchangeExpired, c)
  else
    (.ok (), { c with
      status := .approved
      approvalType := some approvalType
      encryptedContactInfo := encryptedContactInfo
      updatedAt := now })

/-- Deny transition of the aggregate. -/
def ContactExchangeRequest.deny (c : ContactExchangeRequest)
    (reason : DenialReason) (message : Option GoStr) (now : Int) :
    Except GoErr Unit × ContactExchangeRequest :=
  if c.status ≠ .pending then
    (.error (.invalidContactExchangeStatus c.status .denied), c)
  else
    (.ok (), { c with
      status := .denied
      denialReason := some reason
      denialMessage := message
      updatedAt := now })

/-- Expire transition of the aggregate: an idempotent no-op when already
expired, legal from pending or approved, illegal from denied. -/
def ContactExchangeRequest.expire (c : ContactExchangeRequest) (now : Int) :
    Except GoErr Unit × ContactExchangeRequest :=
  if c.status = .expired then
    (.ok (), c)
  else if c.status ≠ .pending ∧ c.status ≠ .approved then
    (.error (.invalidContactExchangeStatus c.status .expired), c)
  else
    (.ok (), { c with status := .expired, updatedAt := now })

/-- ClearContactInfo: removes the encrypted payload in place, legal only
once expired. -/
def ContactExchangeRequest.clearContactInfo (c : ContactExchangeRequest) (now : Int) :
    Except GoErr Unit × ContactExchangeRequest :=
  if c.status ≠ .expired then
    (.error .canOnlyClearExpired, c)
  else
    (.ok (), { c with encryptedContactInfo := none, updatedAt := now })

/-- Byte length of a quoted JSON string segment for key `k` and string value
`v`, that is, of the text consisting of the quoted key, a colon and the
quoted value.  Assumes the strings contain no characters that
`encoding/json` escapes, which holds for every value used in this file. -/
def jsonStrFieldLen (k v : String) : Nat :=
  k.length + v.length + 5

/-- Byte length of the `encoding/json` output for `SharingRestrictions`:
the object with keys expires_after_hours, single_use and platform_mediated
(none carries omitempty). -/
def SharingRestrictions.marshalLen (r : SharingRestrictions) : Nat :=
  1 + (22 + (toString r.expiresAfterHours).length)
    + 1 + (13 + (if r.singleUse then 4 else 5))
    + 1 + (20 + (if r.platformMediated then 4 else 5)) + 1

/-- Byte length of the `encoding/json` output for `ContactInfo`:
email, phone, message and restrictions carry omitempty and are dropped when
nil; preferred_method is always emitted.  The total is the lengths of the
emitted segments, the separating commas and the enclosing braces. -/
def ContactInfo.marshalLen (c : ContactInfo) : Nat :=
  let segs : List Nat :=
    (match c.email with
      | some e => [jsonStrFieldLen "email" e]
      | none => []) ++
    (match c.phone with
      | some p => [jsonStrFieldLen "phone" p]
      | none => []) ++
    [jsonStrFieldLen "preferred_method" c.preferredMethod] ++
    (match c.message with
      | some m => [jsonStrFieldLen "message" m]
      | none => []) ++
    (match c.restrictions with
      | some r => [("restrictions".length + 3) + r.marshalLen]
      | none => [])
  1 + segs.sum + (segs.length - 1) + 1

/-- Byte length of the `encoding/json` output for the token payload map
built by `GenerateContactToken`.  `encoding/json` sorts the keys of a
`map[string]interface{}` alphabetically: contact_info, created_at,
expires_at, nonce.  The nonce is the base64 encoding of 16 random bytes,
24 characters. -/
def TokenPayload.marshalLen (p : TokenPayload) : Nat :=
  1 + (("contact_info".length + 3) + p.contactInfo.marshalLen)
    + 1 + (12 + (toString p.createdAt).length)
    + 1 + (12 + (toString p.expiresAt).length)
    + 1 + jsonStrFieldLen "nonce" "AAAAAAAAAAAAAAAAAAAAAA=="
    + 1

/-- Byte length of a serialized value. -/
def Bytes.len : Bytes → Nat
  | .jsonContactInfo c => c.marshalLen
  | .jsonTokenPayload p => p.marshalLen

/-- Maximum plaintext length accepted by `rsa.EncryptOAEP` for a 4096-bit
key with SHA-256: the key size in bytes minus twice the hash size minus
two, 512 - 64 - 2 = 446 (crypto/rsa returns ErrMessageTooLong above it). -/
def oaepMaxLen : Nat := 446

/-- Contract of `rsa.EncryptOAEP` (SHA-256, 4096-bit key): fails with
ErrMessageTooLong when the plaintext exceeds the single-block capacity,
otherwise yields a ciphertext that decrypts to the plaintext under the
matching private key only. -/
def rsaEncryptOAEP (key : EncryptionKey) (data : Bytes) : Except GoErr Ciphertext :=
  if data.len > oaepMaxLen then .error .messageTooLong
  else .ok { keyFp := key.fingerprint, data := data }

/-- Contract of `rsa.DecryptOAEP`: recovers the plaintext under the key
pair that produced the ciphertext and fails (a decryption error) under any
other key. -/
def rsaDecryptOAEP (key : EncryptionKey) (ct : Ciphertext) : Except GoErr Bytes :=
  if ct.keyFp = key.fingerprint then .ok ct.data else .error .decryptionFailed

/-- Contract of `base64.StdEncoding.EncodeToString` on a ciphertext. -/
def base64Encode (ct : Ciphertext) : GoStr :=
  .b64Cipher ct

/-- Contract of `base64.StdEncoding.DecodeString` followed by use of the
result as a ciphertext: the encoding of a ciphertext decodes back to it;
any other string either fails to decode or yields bytes that are not a
well-formed ciphertext, so every downstream cryptographic use fails.  The
model collapses both failure shapes into the decode error. -/
def base64Decode : GoStr → Except GoErr Ciphertext
  | .b64Cipher ct => .ok ct
  | _ => .error .invalidBase64

/-- Contract of `sha256.Sum256` of a ciphertext followed by base64 encoding
of the digest, as computed by `GenerateContactToken` and recomputed by
`ValidateContactToken`.  SHA-256 is deterministic and collision free, so
the digest string is determined by, and only matches, its ciphertext. -/
def sha256Base64 (ct : Ciphertext) : GoStr :=
  .sha256b64 ct

/-- Key store (`repository.PostgresKeyRepository`): the encryption_keys
table.  The list holds the rows; `saveKey` prepends new rows, and every row
inserted by the engine carries a later created_at than the existing rows,
so list order realises ORDER BY created_at DESC where the engine relies on
it. -/
structure KeyStore where
  keys : List EncryptionKey
deriving DecidableEq, Repr

/-- SaveKey: INSERT with ON CONFLICT (fingerprint) DO UPDATE of the key
material, is_active and expires_at (id and created_at are not updated). -/
def KeyStore.saveKey (st : KeyStore) (k : EncryptionKey) : KeyStore :=
  if st.keys.any (fun e => e.fingerprint = k.fingerprint) then
    { keys := st.keys.map (fun e =>
        if e.fingerprint = k.fingerprint then
          { e with isActive := k.isActive, expiresAt := k.expiresAt }
        else e) }
  else
    { keys := k :: st.keys }

/-- GetActiveKey: SELECT the row with is_active = true, ORDER BY created_at
DESC LIMIT 1; an error when no active row exists.  Among several active
rows the fold keeps the one with the latest created_at. -/
def KeyStore.getActiveKey (st : KeyStore) : Except GoErr EncryptionKey :=
  match st.keys.filter (fun e => e.isActive) with
  | [] => .error .noActiveKey
  | k :: ks => .ok (ks.foldl (fun acc e => if e.createdAt > acc.createdAt then e else acc) k)

/-- GetKeyByFingerprint: SELECT by the rendered fingerprint string; an
error when no row matches. -/
def KeyStore.getKeyByFingerprint (st : KeyStore) (fp : GoStr) : Except GoErr EncryptionKey :=
  match st.keys.find? (fun e => GoStr.fpStr e.fingerprint = fp) with
  | some k => .ok k
  | none => .error .keyNotFound

/-- MarkKeyInactive: UPDATE is_active = false WHERE fingerprint matches; an
error when zero rows are affected. -/
def KeyStore.markKeyInactive (st : KeyStore) (fp : Nat) : Except GoErr KeyStore :=
  if st.keys.any (fun e => e.fingerprint = fp) then
    .ok { keys := st.keys.map (fun e =>
      if e.fingerprint = fp then { e with isActive := false } else e) }
  else
    .error .keyNotFound

/-- RSA-4096 encryption service (`domain.RSAEncryptionService`): the key
repository, the injected audit logger (modelled by the underlying
encryption_audit_logs table) and the cached active key pointer. -/
structure RSAEncryptionService where
  keyRepository : KeyStore
  auditLog : List AuditEntry
  activeKey : Option EncryptionKey
deriving DecidableEq, Repr

/-- Fresh key pair generated by `generateInitialKey` from random key
material `m`: randomly generated RSA-4096 key pairs are pairwise distinct,
so the key material and its fingerprint are modelled by the freshness
parameter itself.  The key is saved as active with creation time `now`. -/
def freshKey (m : Nat) (now : Int) : EncryptionKey :=
  { id := m, fingerprint := m, isActive := true, createdAt := now, expiresAt := none }

/-- The generateInitialKey step: generate an RSA-4096 key pair, PEM-encode
it, fingerprint the public key and save it as active.  Key generation and
SaveKey cannot fail in the model. -/
def RSAEncryptionService.generateInitialKey (s : RSAEncryptionService)
    (m : Nat) (now : Int) : RSAEncryptionService :=
  { s with keyRepository := s.keyRepository.saveKey (freshKey m now) }

/-- The encryptWithKey step: parse the PEM public key and apply
`rsa.EncryptOAEP` with SHA-256.  PEM parsing of a key produced by this
engine always succeeds. -/
def encryptWithKey (data : Bytes) (key : EncryptionKey) : Except GoErr Ciphertext :=
  rsaEncryptOAEP key data

/-- The decryptWithKey step: parse the PEM private key and apply
`rsa.DecryptOAEP` with SHA-256. -/
def decryptWithKey (data : Ciphertext) (key : EncryptionKey) : Except GoErr Bytes :=
  rsaDecryptOAEP key data

/-- The encryptWithActiveKey step.  The Go code dereferences the cached
`activeKey` pointer; a nil pointer here is unreachable for a service built
by `NewRSAEncryptionService`, which always installs a key, and is modelled
as a distinguished error value. -/
def RSAEncryptionService.encryptWithActiveKey (s : RSAEncryptionService)
    (data : Bytes) : Except GoErr Ciphertext :=
  match s.activeKey with
  | some k => encryptWithKey data k
  | none => .error .nilActiveKey

/-- The decryptWithActiveKey step: decryption inside `DecryptContactInfo`
uses the currently active key, not a fingerprint lookup. -/
def RSAEncryptionService.decryptWithActiveKey (s : RSAEncryptionService)
    (data : Ciphertext) : Except GoErr Bytes :=
  match s.activeKey with
  | some k => decryptWithKey data k
  | none => .error .nilActiveKey

/-- EncryptContactInfo: serialize the contact info to JSON, encrypt the
bytes under the active key, then build the `EncryptedContactInfo` by
copying Email, Phone, PreferredMethod, Message and Restrictions from the
plaintext and finally overwriting only the Email field with the base64
ciphertext.  Phone, PreferredMethod and Message therefore carry the
plaintext values into the result, exactly as the source does. -/
def RSAEncryptionService.encryptContactInfo (s : RSAEncryptionService)
    (contactInfo : ContactInfo) : Except GoErr EncryptedContactInfo := do
  let jsonData := Bytes.jsonContactInfo contactInfo
  let encryptedData ← s.encryptWithActiveKey jsonData
  .ok { email := some (base64Encode encryptedData)
        phone := contactInfo.phone.map .lit
        preferredMethod := .lit contactInfo.preferredMethod
        message := contactInfo.message.map .lit
        sharingRestrictions := contactInfo.restrictions }

/-- DecryptContactInfo: require an Email field, base64-decode it, decrypt
with the active key and deserialize the JSON. -/
def RSAEncryptionService.decryptContactInfo (s : RSAEncryptionService)
    (encryptedInfo : EncryptedContactInfo) : Except GoErr ContactInfo := do
  match encryptedInfo.email with
  | none => .error .noEncryptedData
  | some emailStr => do
    let encryptedData ← base64Decode emailStr
    let decryptedData ← s.decryptWithActiveKey encryptedData
    match decryptedData with
    | .jsonContactInfo c => .ok c
    | _ => .error .unmarshalFailed

/-- GenerateContactToken: build the payload map with a random nonce,
serialize and encrypt it under the active key, hash the ciphertext with
SHA-256, and assemble the token tagged with the active key fingerprint. -/
def RSAEncryptionService.generateContactToken (s : RSAEncryptionService)
    (contactInfo : ContactInfo) (expiresAt now : Int) (nonce : Nat) :
    Except GoErr ContactToken := do
  match s.activeKey with
  | none => .error .nilActiveKey
  | some k => do
    let payload : TokenPayload :=
      { contactInfo := contactInfo, expiresAt := expiresAt, createdAt := now, nonce := nonce }
    let encryptedData ← encryptWithKey (Bytes.jsonTokenPayload payload) k
    .ok { token := base64Encode encryptedData
          keyFingerprint := .fpStr k.fingerprint
          expiresAt := expiresAt
          createdAt := now
          integrityHash := sha256Base64 encryptedData }

/-- ValidateContactToken: reject when now is past expiresAt; base64-decode
the token; recompute the SHA-256 integrity hash of the ciphertext and fail
closed on mismatch; look the decryption key up by the fingerprint stored in
the token; decrypt; deserialize the payload and extract the contact info
(marshalling the extracted value back and forth, which is the identity for
this struct). -/
def RSAEncryptionService.validateContactToken (s : RSAEncryptionService)
    (token : ContactToken) (now : Int) : Except GoErr ContactInfo := do
  if now > token.expiresAt then .error .tokenExpired
  else do
    let encryptedData ← base64Decode token.token
    if sha256Base64 encryptedData ≠ token.integrityHash then
      .error .integrityCheckFailed
    else do
      let key ← s.keyRepository.getKeyByFingerprint token.keyFingerprint
      let decryptedData ← decryptWithKey encryptedData key
      match decryptedData with
      | .jsonTokenPayload p => .ok p.contactInfo
      | _ => .error .unmarshalFailed

/-- RotateKeys: mark the cached active key inactive in the store, generate
and save a fresh key pair, reload the active key from the store and cache
it.  The whole post-call state of the service is returned next to the
error value, so the effect on the audit log is part of the statement of
any theorem about this operation. -/
def RSAEncryptionService.rotateKeys (s : RSAEncryptionService)
    (m : Nat) (now : Int) : Except GoErr Unit × RSAEncryptionService :=
  match s.activeKey with
  | some k =>
    match s.keyRepository.markKeyInactive k.fingerprint with
    | .error e => (.error e, s)
    | .ok st =>
      let s1 : RSAEncryptionService := { s with keyRepository := st }
      let s2 := s1.generateInitialKey m now
      match s2.keyRepository.getActiveKey with
      | .error e => (.error e, s2)
      | .ok activeKey => (.ok (), { s2 with activeKey := some activeKey })
  | none =>
    let s2 := s.generateInitialKey m now
    match s2.keyRepository.getActiveKey with
    | .error e => (.error e, s2)
    | .ok activeKey => (.ok (), { s2 with activeKey := some activeKey })

/-- GetActiveKeyFingerprint: the rendered fingerprint of the cached active
key, or the empty string when none is cached. -/
def RSAEncryptionService.getActiveKeyFingerprint (s : RSAEncryptionService) : GoStr :=
  match s.activeKey with
  | some k => .fpStr k.fingerprint
  | none => .lit ""

/-- Post aggregate reduced to the fields the contact-exchange subsystem
reads: owner (CreatedBy), status and organization. -/
structure Post where
  id : PostID
  createdBy : UserID
  status : PostStatus
  organizationId : Option Nat
deriving DecidableEq, Repr

/-- Event published to the message bus by the orchestrator; the fat
snapshots carried by the Go events are elided down to the event kind and
the related request. -/
inductive PublishedEvent where
  | requested (id : RequestID)
  | approved (id : RequestID)
  | denied (id : RequestID)
  | expired (id : RequestID)
deriving DecidableEq, Repr

/-- Contact exchange orchestrator (`service.ContactExchangeService`) with
its injected collaborators: the contact-exchange table, the posts table,
the encryption service (whose auditLog field is the shared
encryption_audit_logs table, the same logger instance being injected into
both per wire.go), the always-succeeding mock user-context repository
(carried implicitly) and the event publisher sink. -/
structure ContactExchangeService where
  contactExchangeRepo : List ContactExchangeRequest
  postRepo : List Post
  encryptionService : RSAEncryptionService
  events : List PublishedEvent
deriving DecidableEq, Repr

/-- Outcome of a Go call that can crash: either a normal return carrying a
value or an error, or a runtime panic from dereferencing a nil pointer. -/
inductive GoOutcome (α : Type) where
  | ret (r : Except GoErr α)
  | nilDeref

instance {ε α : Type} [DecidableEq ε] [DecidableEq α] : DecidableEq (Except ε α) := fun a b =>
  match a, b with
  | .ok x, .ok y =>
    if h : x = y then .isTrue (by rw [h]) else .isFalse (by simp [h])
  | .error x, .error y =>
    if h : x = y then .isTrue (by rw [h]) else .isFalse (by simp [h])
  | .ok _, .error _ => .isFalse (by simp)
  | .error _, .ok _ => .isFalse (by simp)

instance {α : Type} [DecidableEq α] : DecidableEq (GoOutcome α) := fun a b =>
  match a, b with
  | .ret r, .ret r2 =>
    if h : r = r2 then .isTrue (by rw [h]) else .isFalse (by simp [h])
  | .ret _, .nilDeref => .isFalse (by simp)
  | .nilDeref, .ret _ => .isFalse (by simp)
  | .nilDeref, .nilDeref => .isTrue rfl

/-- Command for ApproveContactExchange; the ContactInfo field is a pointer
in the source and nil (`none`) when the HTTP request omits contact_info,
which the handler DTO marks optional. -/
structure ApproveContactExchangeCommand where
  requestId : RequestID
  approvalType : ContactExchangeApprovalType
  contactInfo : Option ContactInfo
deriving DecidableEq, Repr

/-- Command for DenyContactExchange. -/
structure DenyContactExchangeCommand where
  requestId : RequestID
  denialReason : DenialReason
  denialMessage : Option GoStr
deriving DecidableEq, Repr

/-- FindByID on the contact-exchange repository: the row whose id matches,
or a not-found error. -/
def findByID (repo : List ContactExchangeRequest) (id : RequestID) :
    Except GoErr ContactExchangeRequest :=
  match repo.find? (fun r => r.id = id) with
  | some r => .ok r
  | none => .error .requestNotFound

/-- Update on the contact-exchange repository: UPDATE ... WHERE id matches
(an absent id affects zero rows and raises no error). -/
def updateRepo (repo : List ContactExchangeRequest) (r : ContactExchangeRequest) :
    List ContactExchangeRequest :=
  repo.map (fun x => if x.id = r.id then r else x)

/-- LogOperation of the injected audit logger: append one row to the
encryption_audit_logs table.  The Go callers discard the returned error. -/
def ContactExchangeService.logOperation (st : ContactExchangeService)
    (e : AuditEntry) : ContactExchangeService :=
  { st with encryptionService :=
      { st.encryptionService with auditLog := st.encryptionService.auditLog ++ [e] } }

/-- ApproveContactExchange: load the request; encrypt the contact info
(dereferencing the ContactInfo pointer of the command, which panics when it
is nil); log the encryption outcome to the audit log; transition the
aggregate through Approve; persist; look up the post and the privacy-safe
user contexts (the user-context repository is the mock that never fails)
and publish the approved event best effort. -/
def ContactExchangeService.approveContactExchange (st : ContactExchangeService)
    (cmd : ApproveContactExchangeCommand) (now : Int) :
    GoOutcome ContactExchangeRequest × ContactExchangeService :=
  match findByID st.contactExchangeRepo cmd.requestId with
  | .error e => (.ret (.error e), st)
  | .ok request =>
    match cmd.contactInfo with
    | none => (.nilDeref, st)
    | some contactInfo =>
      match st.encryptionService.encryptContactInfo contactInfo with
      | .error e =>
        let st := st.logOperation
          { operation := .encrypt
            userId := request.ownerUserId
            requestId := some request.id
            keyFingerprint := st.encryptionService.getActiveKeyFingerprint
            success := false
            errorMessage := some e.message }
        (.ret (.error e), st)
      | .ok encryptedContactInfo =>
        let st := st.logOperation
          { operation := .encrypt
            userId := request.ownerUserId
            requestId := some request.id
            keyFingerprint := st.encryptionService.getActiveKeyFingerprint
            success := true
            errorMessage := none }
        match request.approve cmd.approvalType (some encryptedContactInfo) now with
        | (.error e, _) => (.ret (.error e), st)
        | (.ok _, request) =>
          let st := { st with contactExchangeRepo := updateRepo st.contactExchangeRepo request }
          match st.postRepo.find? (fun p => p.id = request.postId) with
          | none => (.ret (.error .postNotFound), st)
          | some _ =>
            let st := { st with events := st.events ++ [.approved request.id] }
            (.ret (.ok request), st)

/-- DenyContactExchange: load the request, transition it through Deny,
persist, look up the post and user contexts and publish the denied event. -/
def ContactExchangeService.denyContactExchange (st : ContactExchangeService)
    (cmd : DenyContactExchangeCommand) (now : Int) :
    Except GoErr ContactExchangeRequest × ContactExchangeService :=
  match findByID st.contactExchangeRepo cmd.requestId with
  | .error e => (.error e, st)
  | .ok request =>
    match request.deny cmd.denialReason cmd.denialMessage now with
    | (.error e, _) => (.error e, st)
    | (.ok _, request) =>
      let st := { st with contactExchangeRepo := updateRepo st.contactExchangeRepo request }
      match st.postRepo.find? (fun p => p.id = request.postId) with
      | none => (.error .postNotFound, st)
      | some _ =>
        let st := { st with events := st.events ++ [.denied request.id] }
        (.ok request, st)

/-- DecryptContactInfo on the orchestrator: load the request; the caller
must be the requester or the owner, else fail closed; require status
approved; require not expired; require a stored encrypted payload; decrypt
through the encryption service; log the decryption outcome either way. -/
def ContactExchangeService.decryptContactInfo (st : ContactExchangeService)
    (requestId : RequestID) (userId : UserID) (now : Int) :
    Except GoErr ContactInfo × ContactExchangeService :=
  match findByID st.contactExchangeRepo requestId with
  | .error e => (.error e, st)
  | .ok request =>
    if request.requesterUserId ≠ userId ∧ request.ownerUserId ≠ userId then
      (.error .unauthorizedDecrypt, st)
    else if request.status ≠ .approved then
      (.error .requestNotApproved, st)
    else if request.isExpired now then
      (.error .requestExpired, st)
    else
      match request.encryptedContactInfo with
      | none => (.error .noContactInfoAvailable, st)
      | some encryptedInfo =>
        match st.encryptionService.decryptContactInfo encryptedInfo with
        | .error e =>
          let st := st.logOperation
            { operation := .decrypt
              userId := userId
              requestId := some requestId
              keyFingerprint := st.encryptionService.getActiveKeyFingerprint
              success := false
              errorMessage := some e.message }
          (.error e, st)
        | .ok contactInfo =>
          let st := st.logOperation
            { operation := .decrypt
              userId := userId
              requestId := some requestId
              keyFingerprint := st.encryptionService.getActiveKeyFingerprint
              success := true
              errorMessage := none }
          (.ok contactInfo, st)

/-- CancelContactExchange of the HTTP handler: load the request; only the
requester may cancel; only pending requests may be cancelled; then deny
with reason user_preference and message Cancelled by requester.  The
authentication, id-parsing and JSON plumbing of the handler are elided. -/
def cancelContactExchange (st : ContactExchangeService)
    (requestId : RequestID) (userId : UserID) (now : Int) :
    Except GoErr ContactExchangeRequest × ContactExchangeService :=
  match findByID st.contactExchangeRepo requestId with
  | .error e => (.error e, st)
  | .ok request =>
    if request.requesterUserId ≠ userId then
      (.error .onlyRequesterCanCancel, st)
    else if request.status ≠ .pending then
      (.error .canOnlyCancelPending, st)
    else
      st.denyContactExchange
        { requestId := requestId
          denialReason := .userPreference
          denialMessage := some (.lit "Cancelled by requester") } now

/-- FindExpired of the Postgres repository: SELECT WHERE expires_at is not
in the future AND status IN (pending, approved), ORDER BY expires_at ASC
LIMIT n.  Ordering only selects which rows are returned when more than n
match and is realised here by the stable filter order. -/
def findExpired (repo : List ContactExchangeRequest) (now : Int) (limit : Nat) :
    List ContactExchangeRequest :=
  ((repo.filter (fun r =>
      r.expiresAt ≤ now ∧ (r.status = .pending ∨ r.status = .approved))).take limit)

/-- The expireContactExchangeRequest step: transition the request through
Expire, persist, look up the post and user contexts and publish the
expired event; an error leaves the sweep to continue with the next row. -/
def ContactExchangeService.expireContactExchangeRequest (st : ContactExchangeService)
    (request : ContactExchangeRequest) (now : Int) :
    Except GoErr Unit × ContactExchangeService :=
  match request.expire now with
  | (.error e, _) => (.error e, st)
  | (.ok _, request) =>
    let st := { st with contactExchangeRepo := updateRepo st.contactExchangeRepo request }
    match st.postRepo.find? (fun p => p.id = request.postId) with
    | none => (.error .postNotFound, st)
    | some _ =>
      let st := { st with events := st.events ++ [.expired request.id] }
      (.ok (), st)

/-- ProcessExpiredRequests: fetch up to 100 rows past expiry in status
pending or approved and expire each, tolerating per-row failures. -/
def ContactExchangeService.processExpiredRequests (st : ContactExchangeService)
    (now : Int) : ContactExchangeService :=
  (findExpired st.contactExchangeRepo now 100).foldl
    (fun st request => (st.expireContactExchangeRequest request now).2) st

/-- The securelyCleanupContactInfo step: clear the encrypted payload
through ClearContactInfo (logging a failed cleanup entry when the domain
method rejects), persist, and log a successful cleanup entry.  The source
records both entries under the decrypt operation kind with key fingerprint
cleanup_operation. -/
def ContactExchangeService.securelyCleanupContactInfo (st : ContactExchangeService)
    (request : ContactExchangeRequest) (now : Int) :
    Except GoErr Unit × ContactExchangeService :=
  match request.clearContactInfo now with
  | (.error e, _) =>
    let st := st.logOperation
      { operation := .decrypt
        userId := request.ownerUserId
        requestId := some request.id
        keyFingerprint := .lit "cleanup_operation"
        success := false
        errorMessage := some e.message }
    (.error e, st)
  | (.ok _, request) =>
    let st := { st with contactExchangeRepo := updateRepo st.contactExchangeRepo request }
    let st := st.logOperation
      { operation := .decrypt
        userId := request.ownerUserId
        requestId := some request.id
        keyFingerprint := .lit "cleanup_operation"
        success := true
        errorMessage := none }
    (.ok (), st)

/-- CleanupExpiredTokens: fetch rows through FindExpired and, for each row
that still carries an encrypted payload and whose status is expired, run
the secure cleanup, tolerating per-row failures. -/
def ContactExchangeService.cleanupExpiredTokens (st : ContactExchangeService)
    (now : Int) : ContactExchangeService :=
  (findExpired st.contactExchangeRepo now 100).foldl
    (fun st request =>
      if request.encryptedContactInfo ≠ none ∧ request.status = .expired then
        (st.securelyCleanupContactInfo request now).2
      else st) st

/-! Concrete fixtures used by counterexamples and witnesses. -/

/-- Concrete key pair used by concrete instances. -/
def key1 : EncryptionKey :=
  { id := 1, fingerprint := 1, isActive := true, createdAt := 0, expiresAt := none }

/-- Concrete encryption service holding `key1` as its sole, active key. -/
def svc1 : RSAEncryptionService :=
  { keyRepository := { keys := [key1] }, auditLog := [], activeKey := some key1 }

/-- Concrete small contact payload. -/
def contactSmall : ContactInfo :=
  { email := some "owner@example.com"
    phone := some "15551234567"
    preferredMethod := "email"
    message := some "Please contact me about the item"
    restrictions := none }

/-- Concrete pending contact-exchange request. -/
def reqPending : ContactExchangeRequest :=
  { id := ⟨10⟩
    postId := ⟨20⟩
    requesterUserId := ⟨1⟩
    ownerUserId := ⟨2⟩
    status := .pending
    message := none
    verificationRequired := false
    verificationDetails := none
    approvalType := none
    denialReason := none
    denialMessage := none
    encryptedContactInfo := none
    expiresAt := 100
    createdAt := 0
    updatedAt := 0 }

/-! Claim theorems. -/

/-- C6: `Approve(approvalType, encryptedPayload)` succeeds exactly when the
request is `pending` and the current time is not past the stored expiry, in
which case it sets the approval type, stores the payload and records the
update time; called in status `approved`, `denied` or `expired`, or on a
pending request past its expiry, it returns an error and leaves every
field of the request unchanged. -/
theorem approve_only_pending_not_expired (c : ContactExchangeRequest)
    (t : ContactExchangeApprovalType) (eci : Option EncryptedContactInfo) (now : Int) :
    (c.status = .pending ∧ now ≤ c.expiresAt →
       c.approve t eci now =
         (.ok (), { c with status := .approved, approvalType := some t,
                           encryptedContactInfo := eci, updatedAt := now })) ∧
    (¬ (c.status = .pending ∧ now ≤ c.expiresAt) →
       ∃ e, c.approve t eci now = (.error e, c)) := by
  constructor
  · rintro ⟨h1, h2⟩
    simp [ContactExchangeRequest.approve, h1, ContactExchangeRequest.isExpired,
      not_lt.mpr h2]
  · intro h
    by_cases h1 : c.status = .pending
    · have h2 : c.expiresAt < now := by
        by_contra hc
        exact h ⟨h1, not_lt.mp hc⟩
      exact ⟨.contactExchangeExpired, by
        simp [ContactExchangeRequest.approve, h1, ContactExchangeRequest.isExpired, h2]⟩
    · exact ⟨.invalidContactExchangeStatus c.status .approved, by
        simp [ContactExchangeRequest.approve, h1]⟩

/-- Witness for C6: concrete approval of a fresh pending request succeeds,
and a concrete approval of a denied request fails without mutation. -/
theorem approve_only_pending_not_expired_witness :
    reqPending.approve .fullContact none 5 =
      (.ok (), { reqPending with status := .approved, approvalType := some .fullContact,
                                 encryptedContactInfo := none, updatedAt := 5 }) ∧
    ∃ e, ({ reqPending with status := .denied }).approve .fullContact none 5 =
      (.error e, { reqPending with status := .denied }) :=
  ⟨(approve_only_pending_not_expired reqPending .fullContact none 5).1
      (by constructor <;> decide),
   (approve_only_pending_not_expired { reqPending with status := .denied }
      .fullContact none 5).2 (by decide)⟩

/-- C8: `ValidateContactToken` never reaches decryption on a bad token.  A
token whose expiry instant lies strictly in the past fails with the expiry
error regardless of its payload, and a token whose stored integrity hash
differs from the recomputed SHA-256 of its ciphertext fails with the
integrity error.  Both facts hold for every service state, so neither
outcome consults the key store or attempts a decryption: the decryption
branch is reached only after the expiry and integrity checks pass. -/
theorem validateContactToken_guards (s : RSAEncryptionService)
    (token : ContactToken) (now : Int) :
    (now > token.expiresAt →
       s.validateContactToken token now = .error .tokenExpired) ∧
    (∀ ct, now ≤ token.expiresAt → base64Decode token.token = .ok ct →
       sha256Base64 ct ≠ token.integrityHash →
       s.validateContactToken token now = .error .integrityCheckFailed) := by
  constructor
  · intro h
    simp [RSAEncryptionService.validateContactToken, h]
  · intro ct h1 h2 h3
    simp [RSAEncryptionService.validateContactToken, not_lt.mpr h1, h2, h3,
      bind, Except.bind]

/-- Witness for C8: a concrete expired token fails with the expiry error,
and a concrete live token whose hash was overwritten fails with the
integrity error. -/
theorem validateContactToken_guards_witness :
    svc1.validateContactToken
      { token := .b64Cipher ⟨1, .jsonContactInfo contactSmall⟩
        keyFingerprint := .fpStr 1
        expiresAt := 50
        createdAt := 0
        integrityHash := sha256Base64 ⟨1, .jsonContactInfo contactSmall⟩ } 60 =
      .error .tokenExpired ∧
    svc1.validateContactToken
      { token := .b64Cipher ⟨1, .jsonContactInfo contactSmall⟩
        keyFingerprint := .fpStr 1
        expiresAt := 50
        createdAt := 0
        integrityHash := .lit "corrupted_hash" } 40 =
      .error .integrityCheckFailed :=
  ⟨(validateContactToken_guards svc1 _ 60).1 (by decide),
   (validateContactToken_guards svc1 _ 40).2
     ⟨1, .jsonContactInfo contactSmall⟩ (by decide) rfl (by decide)⟩

/-- Composition of EncryptContactInfo and DecryptContactInfo on one and the
same service state, the subject of the round-trip property. -/
def RSAEncryptionService.encryptThenDecrypt (s : RSAEncryptionService)
    (contactInfo : ContactInfo) : Except GoErr ContactInfo := do
  let encrypted ← s.encryptContactInfo contactInfo
  s.decryptContactInfo encrypted

/-- Concrete contact payload whose serialized JSON form is 567 bytes, past
the 446-byte single-block capacity of RSA-4096 OAEP with SHA-256. -/
def contactBig : ContactInfo :=
  { email := some "big@example.com"
    phone := none
    preferredMethod := "email"
    message := some (String.mk (List.replicate 500 'a'))
    restrictions := none }

set_option maxRecDepth 4096 in
/-- C1 counterexample: on the payload `contactBig`, whose serialized form
exceeds one RSA-4096 OAEP block, `EncryptContactInfo` fails with the
message-too-long error of `rsa.EncryptOAEP`, so Decrypt(Encrypt(P)) does
not return P: the round trip does not extend past a single block. -/
theorem encrypt_decrypt_roundtrip_fails_beyond_block :
    svc1.encryptThenDecrypt contactBig = .error .messageTooLong ∧
    svc1.encryptThenDecrypt contactBig ≠ .ok contactBig := by
  have h : svc1.encryptThenDecrypt contactBig = .error .messageTooLong := rfl
  refine ⟨h, ?_⟩
  rw [h]
  intro hc
  exact Except.noConfusion hc

/-- C1 as amended: for every contact payload whose serialized JSON form
fits in a single RSA-4096 OAEP block (at most 446 bytes), decryption of
the encryption on the same service state returns the original payload. -/
theorem encrypt_decrypt_roundtrip_within_block (s : RSAEncryptionService)
    (k : EncryptionKey) (c : ContactInfo) (hk : s.activeKey = some k)
    (hlen : c.marshalLen ≤ oaepMaxLen) :
    s.encryptThenDecrypt c = .ok c := by
  simp [RSAEncryptionService.encryptThenDecrypt, RSAEncryptionService.encryptContactInfo,
    RSAEncryptionService.encryptWithActiveKey, hk, encryptWithKey, rsaEncryptOAEP,
    Bytes.len, Nat.not_lt.mpr hlen, bind, Except.bind,
    RSAEncryptionService.decryptContactInfo, base64Encode, base64Decode,
    RSAEncryptionService.decryptWithActiveKey, decryptWithKey, rsaDecryptOAEP]

/-- Witness for C1 as amended: the concrete small payload round-trips. -/
theorem encrypt_decrypt_roundtrip_within_block_witness :
    svc1.encryptThenDecrypt contactSmall = .ok contactSmall :=
  encrypt_decrypt_roundtrip_within_block svc1 key1 contactSmall rfl (by decide)

/-- C5: the `EncryptedContactInfo` built by `EncryptContactInfo` carries the
plaintext phone value through unchanged: only the Email field is
overwritten with ciphertext, while Phone (and Message) are copied verbatim
from the plaintext payload, so the resulting phone field equals the
corresponding plaintext value. -/
theorem encryptContactInfo_phone_stays_plaintext :
    (svc1.encryptContactInfo contactSmall).map (fun e => e.phone) =
      .ok (contactSmall.phone.map GoStr.lit) ∧
    contactSmall.phone = some "15551234567" := by
  exact ⟨rfl, rfl⟩

/-- C2: `RotateKeys` writes nothing to the audit log: for every service
state, random key material and instant, the audit log after the call (on
success and on failure alike) is exactly the audit log before it — zero
entries are appended, where the specification demands exactly one.  No
caller of RotateKeys in the repository logs a key_rotation entry either:
the LogKeyRotation helper of the Postgres audit logger has no callers. -/
theorem rotateKeys_appends_no_audit_entry (s : RSAEncryptionService)
    (m : Nat) (now : Int) :
    ((s.rotateKeys m now).2).auditLog = s.auditLog := by
  unfold RSAEncryptionService.rotateKeys
  dsimp only
  split
  · split
    · rfl
    · split
      · rfl
      · rfl
  · split
    · rfl
    · rfl

/-- Concrete post owning the pending request fixture. -/
def post1 : Post :=
  { id := ⟨20⟩, createdBy := ⟨2⟩, status := .active, organizationId := none }

/-- Stored encrypted payload fixture, as produced by the engine under
`key1` for `contactSmall`. -/
def eciStored : EncryptedContactInfo :=
  { email := some (.b64Cipher ⟨1, .jsonContactInfo contactSmall⟩)
    phone := some (.lit "15551234567")
    preferredMethod := .lit "email"
    message := some (.lit "Please contact me about the item")
    sharingRestrictions := none }

/-- Request fixture approved with a stored encrypted payload and an expiry
at instant 100. -/
def reqApprovedOld : ContactExchangeRequest :=
  { reqPending with
      status := .approved
      approvalType := some .fullContact
      encryptedContactInfo := some eciStored }

/-- Orchestrator state fixture holding the approved, payload-carrying
request and its post. -/
def svc3 : ContactExchangeService :=
  { contactExchangeRepo := [reqApprovedOld]
    postRepo := [post1]
    encryptionService := svc1
    events := [] }

/-- C3: `CleanupExpiredTokens` clears nothing.  In the concrete scenario a
request approved with an encrypted payload passes its expiry;
`ProcessExpiredRequests` stores it as `expired`; the subsequent
`CleanupExpiredTokens` run leaves the repository unchanged, the payload
still in place, because `FindExpired` selects only rows in status pending
or approved while the cleanup loop demands status expired. -/
theorem cleanupExpiredTokens_clears_nothing :
    (findByID (svc3.processExpiredRequests 200).contactExchangeRepo ⟨10⟩ =
       .ok { reqApprovedOld with status := .expired, updatedAt := 200 }) ∧
    ((svc3.processExpiredRequests 200).cleanupExpiredTokens 200).contactExchangeRepo =
       (svc3.processExpiredRequests 200).contactExchangeRepo ∧
    ({ reqApprovedOld with status := .expired, updatedAt := 200 }).encryptedContactInfo =
       some eciStored := by
  refine ⟨?_, ?_, rfl⟩ <;> rfl

/-- Orchestrator state fixture holding the pending request and its post. -/
def svc9 : ContactExchangeService :=
  { contactExchangeRepo := [reqPending]
    postRepo := [post1]
    encryptionService := svc1
    events := [] }

/-- C9: `ApproveContactExchange` is not total over its command type: on a
command whose ContactInfo pointer is nil — which the HTTP layer can
produce, since the approve DTO marks contact_info optional — the service
dereferences the nil pointer and crashes instead of returning a value or
an error. -/
theorem approveContactExchange_nil_contact_crashes :
    svc9.approveContactExchange
      { requestId := ⟨10⟩, approvalType := .fullContact, contactInfo := none } 5 =
      (.nilDeref, svc9) := by
  rfl

/-- C7: third parties cannot obtain plaintext through the orchestrator.
For a stored request, a caller who is neither the requester nor the owner
always receives the authorization error and no plaintext, whatever the
status or expiry of the request; an authorized caller is additionally
refused unless the status is approved, and refused on an expired request. -/
theorem decryptContactInfo_requires_authorization (st : ContactExchangeService)
    (requestId : RequestID) (userId : UserID) (now : Int)
    (r : ContactExchangeRequest)
    (h : findByID st.contactExchangeRepo requestId = .ok r) :
    (r.requesterUserId ≠ userId ∧ r.ownerUserId ≠ userId →
       (st.decryptContactInfo requestId userId now).1 = .error .unauthorizedDecrypt) ∧
    ((r.requesterUserId = userId ∨ r.ownerUserId = userId) → r.status ≠ .approved →
       (st.decryptContactInfo requestId userId now).1 = .error .requestNotApproved) ∧
    ((r.requesterUserId = userId ∨ r.ownerUserId = userId) → r.status = .approved →
       now > r.expiresAt →
       (st.decryptContactInfo requestId userId now).1 = .error .requestExpired) := by
  unfold ContactExchangeService.decryptContactInfo
  rw [h]
  refine ⟨?_, ?_, ?_⟩
  · rintro ⟨h1, h2⟩
    simp [h1, h2]
  · intro hauth hst
    have hna : ¬ (r.requesterUserId ≠ userId ∧ r.ownerUserId ≠ userId) := by
      rcases hauth with ha | ha <;> simp [ha]
    simp [hna, hst]
  · intro hauth hst hexp
    have hna : ¬ (r.requesterUserId ≠ userId ∧ r.ownerUserId ≠ userId) := by
      rcases hauth with ha | ha <;> simp [ha]
    simp [hna, hst, ContactExchangeRequest.isExpired, hexp]

/-- Witness for C7: on the concrete approved, unexpired request, the
third-party caller 99 is refused with the authorization error; the owner
is refused on the concrete pending request with the not-approved error and
on an expired approved request with the expiry error. -/
theorem decryptContactInfo_requires_authorization_witness :
    (svc3.decryptContactInfo ⟨10⟩ ⟨99⟩ 50).1 = .error .unauthorizedDecrypt ∧
    (svc9.decryptContactInfo ⟨10⟩ ⟨2⟩ 50).1 = .error .requestNotApproved ∧
    (svc3.decryptContactInfo ⟨10⟩ ⟨2⟩ 200).1 = .error .requestExpired :=
  ⟨(decryptContactInfo_requires_authorization svc3 ⟨10⟩ ⟨99⟩ 50 reqApprovedOld rfl).1
      (by decide),
   (decryptContactInfo_requires_authorization svc9 ⟨10⟩ ⟨2⟩ 50 reqPending rfl).2.1
      (by decide) (by decide),
   (decryptContactInfo_requires_authorization svc3 ⟨10⟩ ⟨2⟩ 200 reqApprovedOld rfl).2.2
      (by decide) (by decide) (by decide)⟩

/-- C10: requester-initiated cancellation is realised as a denial.  When
the requester cancels a stored pending request, the repository afterwards
holds that request in status denied with denial reason user_preference and
denial message Cancelled by requester; cancellation of a request in any
other status is rejected and the whole service state is left unchanged. -/
theorem cancelContactExchange_is_denial (st : ContactExchangeService)
    (requestId : RequestID) (userId : UserID) (now : Int)
    (r : ContactExchangeRequest)
    (h : findByID st.contactExchangeRepo requestId = .ok r)
    (hreq : r.requesterUserId = userId) :
    (r.status = .pending →
       (cancelContactExchange st requestId userId now).2.contactExchangeRepo =
         updateRepo st.contactExchangeRepo
           { r with status := .denied
                    denialReason := some .userPreference
                    denialMessage := some (.lit "Cancelled by requester")
                    updatedAt := now }) ∧
    (r.status ≠ .pending →
       cancelContactExchange st requestId userId now = (.error .canOnlyCancelPending, st)) := by
  unfold cancelContactExchange
  rw [h]
  constructor
  · intro hp
    simp only [hreq, ne_eq, not_true_eq_false, if_false, hp, if_true]
    unfold ContactExchangeService.denyContactExchange
    rw [h]
    unfold ContactExchangeRequest.deny
    simp only [hp, ne_eq, not_true_eq_false, if_false]
    cases hpost : st.postRepo.find? (fun p => p.id = r.postId) <;>
      simp [hpost, hreq]
  · intro hnp
    simp [hreq, hnp]

/-- Witness for C10: the concrete requester cancels the concrete pending
request and the repository holds the denial; cancelling the concrete
approved request is rejected without mutation. -/
theorem cancelContactExchange_is_denial_witness :
    (cancelContactExchange svc9 ⟨10⟩ ⟨1⟩ 7).2.contactExchangeRepo =
      updateRepo svc9.contactExchangeRepo
        { reqPending with status := .denied
                          denialReason := some .userPreference
                          denialMessage := some (.lit "Cancelled by requester")
                          updatedAt := 7 } ∧
    cancelContactExchange svc3 ⟨10⟩ ⟨1⟩ 7 = (.error .canOnlyCancelPending, svc3) :=
  ⟨(cancelContactExchange_is_denial svc9 ⟨10⟩ ⟨1⟩ 7 reqPending rfl rfl).1 rfl,
   (cancelContactExchange_is_denial svc3 ⟨10⟩ ⟨1⟩ 7 reqApprovedOld rfl rfl).2 (by decide)⟩

/-- Helper for the rotation proof: MarkKeyInactive succeeds on a stored
fingerprint and flips exactly the matching rows to inactive. -/
theorem markKeyInactive_ok (st : KeyStore) (fp : Nat)
    (h : ∃ e ∈ st.keys, e.fingerprint = fp) :
    st.markKeyInactive fp =
      .ok ⟨st.keys.map (fun e =>
        if e.fingerprint = fp then { e with isActive := false } else e)⟩ := by
  unfold KeyStore.markKeyInactive
  have hA : st.keys.any (fun e => e.fingerprint = fp) = true := by
    obtain ⟨e, he, hfp⟩ := h
    exact List.any_eq_true.mpr ⟨e, he, by simp [hfp]⟩
  simp [hA]

/-- Helper for the rotation proof: SaveKey of a key with a fingerprint not
yet stored inserts a fresh row. -/
theorem saveKey_fresh (st : KeyStore) (k0 : EncryptionKey)
    (h : ∀ e ∈ st.keys, e.fingerprint ≠ k0.fingerprint) :
    st.saveKey k0 = ⟨k0 :: st.keys⟩ := by
  unfold KeyStore.saveKey
  cases hA : st.keys.any (fun e => e.fingerprint = k0.fingerprint) with
  | false => simp [hA]
  | true =>
    exfalso
    obtain ⟨e, he, hpe⟩ := List.any_eq_true.mp hA
    exact h e he (by simpa using hpe)

/-- Helper for the rotation proof: after the single active fingerprint is
marked inactive and a fresh active key is prepended, GetActiveKey returns
the fresh key. -/
theorem getActiveKey_after_rotate (keys : List EncryptionKey) (fp : Nat)
    (k0 : EncryptionKey)
    (hone : ∀ e ∈ keys, e.isActive = true → e.fingerprint = fp)
    (hact : k0.isActive = true) :
    KeyStore.getActiveKey ⟨k0 :: keys.map (fun e =>
      if e.fingerprint = fp then { e with isActive := false } else e)⟩ = .ok k0 := by
  unfold KeyStore.getActiveKey
  have hmap : (keys.map (fun e =>
      if e.fingerprint = fp then { e with isActive := false } else e)).filter
        (fun e => e.isActive) = [] := by
    rw [List.filter_eq_nil_iff]
    intro a ha
    obtain ⟨x, hx, hxa⟩ := List.mem_map.mp ha
    by_cases hfp : x.fingerprint = fp
    · rw [← hxa]
      simp [hfp]
    · have hx0 : x.isActive = false := by
        cases hx1 : x.isActive
        · rfl
        · exact absurd (hone x hx hx1) hfp
      rw [← hxa]
      simp [hfp, hx0]
  simp [List.filter_cons, hact, hmap]

/-- Helper for the rotation proof: GetKeyByFingerprint returns a row
carrying the requested fingerprint whenever one is stored. -/
theorem getKeyByFingerprint_mem (st : KeyStore) (fp : Nat)
    (h : ∃ e ∈ st.keys, e.fingerprint = fp) :
    ∃ e, st.getKeyByFingerprint (.fpStr fp) = .ok e ∧ e.fingerprint = fp := by
  unfold KeyStore.getKeyByFingerprint
  cases hf : st.keys.find? (fun e => GoStr.fpStr e.fingerprint = GoStr.fpStr fp) with
  | none =>
    exfalso
    obtain ⟨e, he, hfp⟩ := h
    have := List.find?_eq_none.mp hf e he
    simp [hfp] at this
  | some e =>
    have hp := List.find?_some hf
    refine ⟨e, rfl, ?_⟩
    have he : GoStr.fpStr e.fingerprint = GoStr.fpStr fp := by simpa using hp
    injection he

/-- C4 counterexample: a payload encrypted before a key rotation is not
decryptable after it.  Concretely, `EncryptContactInfo` produces a payload
under the active key with fingerprint 1; `RotateKeys` succeeds and installs
a fresh key; the subsequent `DecryptContactInfo` fails, because decryption
of stored payloads uses the currently active key — `EncryptedContactInfo`
stores no key fingerprint, so no fingerprint lookup is possible for it. -/
theorem rotateKeys_old_payload_undecryptable :
    ∃ e, svc1.encryptContactInfo contactSmall = .ok e ∧
      (svc1.rotateKeys 2 10).1 = .ok () ∧
      ((svc1.rotateKeys 2 10).2).decryptContactInfo e = .error .decryptionFailed := by
  refine ⟨{ email := some (.b64Cipher ⟨1, .jsonContactInfo contactSmall⟩)
            phone := some (.lit "15551234567")
            preferredMethod := .lit "email"
            message := some (.lit "Please contact me about the item")
            sharingRestrictions := none }, ?_, ?_, ?_⟩ <;> rfl

/-- C4 as amended: after a successful `RotateKeys` on a service whose sole
active key is the cached one, the active key fingerprint differs from the
prior fingerprint, and contact tokens issued before the rotation remain
valid, their decryption key found by fingerprint lookup in the key store;
`EncryptedContactInfo` payloads encrypted before the rotation, however,
are no longer decryptable, since `DecryptContactInfo` decrypts with the
currently active key.  The freshness hypothesis models that a newly
generated random RSA-4096 key pair never collides with a stored one. -/
theorem rotateKeys_fingerprint_and_old_data (s : RSAEncryptionService)
    (k : EncryptionKey) (m : Nat) (now : Int)
    (hk : s.activeKey = some k)
    (hmem : ∃ e ∈ s.keyRepository.keys, e.fingerprint = k.fingerprint)
    (hone : ∀ e ∈ s.keyRepository.keys, e.isActive = true → e.fingerprint = k.fingerprint)
    (hfresh : ∀ e ∈ s.keyRepository.keys, e.fingerprint ≠ m) :
    ∃ s2, s.rotateKeys m now = (.ok (), s2) ∧
      s2.activeKey = some (freshKey m now) ∧
      (freshKey m now).fingerprint ≠ k.fingerprint ∧
      (∀ ci expiry tnow nonce tok now2,
         s.generateContactToken ci expiry tnow nonce = .ok tok →
         now2 ≤ tok.expiresAt →
         s2.validateContactToken tok now2 = .ok ci) ∧
      (∀ ci e, s.encryptContactInfo ci = .ok e →
         s2.decryptContactInfo e = .error .decryptionFailed) := by
  have hmne : k.fingerprint ≠ m := by
    obtain ⟨e, he, hfp⟩ := hmem
    exact hfp ▸ hfresh e he
  have hmk := markKeyInactive_ok s.keyRepository k.fingerprint hmem
  set mapped : List EncryptionKey := s.keyRepository.keys.map (fun e =>
    if e.fingerprint = k.fingerprint then { e with isActive := false } else e)
    with hmapped
  have hfpres : ∀ e ∈ mapped, ∃ x ∈ s.keyRepository.keys, e.fingerprint = x.fingerprint := by
    intro e he
    obtain ⟨x, hx, hxe⟩ := List.mem_map.mp he
    refine ⟨x, hx, ?_⟩
    rw [← hxe]
    by_cases hfp : x.fingerprint = k.fingerprint <;> simp [hfp]
  have hsave : KeyStore.saveKey ⟨mapped⟩ (freshKey m now) = ⟨freshKey m now :: mapped⟩ := by
    apply saveKey_fresh
    intro e he
    obtain ⟨x, hx, hxe⟩ := hfpres e he
    rw [hxe]
    exact hfresh x hx
  have hget : KeyStore.getActiveKey ⟨freshKey m now :: mapped⟩ = .ok (freshKey m now) :=
    getActiveKey_after_rotate s.keyRepository.keys k.fingerprint (freshKey m now) hone rfl
  have hrot : s.rotateKeys m now = (.ok (),
      { keyRepository := ⟨freshKey m now :: mapped⟩
        auditLog := s.auditLog
        activeKey := some (freshKey m now) }) := by
    unfold RSAEncryptionService.rotateKeys
    rw [hk]
    dsimp only
    rw [hmk]
    dsimp only [RSAEncryptionService.generateInitialKey]
    rw [hsave, hget]
  refine ⟨_, hrot, rfl, Ne.symm hmne, ?_, ?_⟩
  · intro ci expiry tnow nonce tok now2 htok hne
    unfold RSAEncryptionService.generateContactToken at htok
    rw [hk] at htok
    dsimp only at htok
    unfold encryptWithKey rsaEncryptOAEP at htok
    by_cases hlen :
        (Bytes.jsonTokenPayload
          { contactInfo := ci, expiresAt := expiry, createdAt := tnow, nonce := nonce }).len >
          oaepMaxLen
    · simp [hlen, bind, Except.bind] at htok
    · simp only [hlen, if_false, if_neg, bind, Except.bind, Except.ok.injEq] at htok
      subst htok
      unfold RSAEncryptionService.validateContactToken
      have hne2 : ¬ (now2 > expiry) := Int.not_lt.mpr hne
      obtain ⟨e, hfind, hefp⟩ :=
        getKeyByFingerprint_mem ⟨freshKey m now :: mapped⟩ k.fingerprint (by
          obtain ⟨x, hx, hxfp⟩ := hmem
          refine ⟨if x.fingerprint = k.fingerprint then { x with isActive := false } else x,
            List.mem_cons_of_mem _ (List.mem_map.mpr ⟨x, hx, rfl⟩), ?_⟩
          by_cases hfp : x.fingerprint = k.fingerprint <;> simp [hfp, hxfp])
      simp [hne2, base64Decode, sha256Base64, base64Encode, bind, Except.bind, hfind,
        decryptWithKey, rsaDecryptOAEP, hefp]
  · intro ci e henc
    unfold RSAEncryptionService.encryptContactInfo
      RSAEncryptionService.encryptWithActiveKey at henc
    rw [hk] at henc
    dsimp only at henc
    unfold encryptWithKey rsaEncryptOAEP at henc
    by_cases hlen : (Bytes.jsonContactInfo ci).len > oaepMaxLen
    · simp [hlen, bind, Except.bind] at henc
    · simp only [hlen, if_false, if_neg, bind, Except.bind, Except.ok.injEq] at henc
      subst henc
      unfold RSAEncryptionService.decryptContactInfo
      simp [base64Encode, base64Decode, bind, Except.bind,
        RSAEncryptionService.decryptWithActiveKey, decryptWithKey, rsaDecryptOAEP,
        freshKey, hmne]

/-- Witness for C4 as amended: the concrete single-key service rotates
successfully with fresh key material. -/
theorem rotateKeys_fingerprint_and_old_data_witness :
    ∃ s2, svc1.rotateKeys 2 10 = (.ok (), s2) ∧
      s2.activeKey = some (freshKey 2 10) ∧
      (freshKey 2 10).fingerprint ≠ key1.fingerprint ∧
      (∀ ci expiry tnow nonce tok now2,
         svc1.generateContactToken ci expiry tnow nonce = .ok tok →
         now2 ≤ tok.expiresAt →
         s2.validateContactToken tok now2 = .ok ci) ∧
      (∀ ci e, svc1.encryptContactInfo ci = .ok e →
         s2.decryptContactInfo e = .error .decryptionFailed) :=
  rotateKeys_fingerprint_and_old_data svc1 key1 2 10 rfl
    ⟨key1, by decide, by decide⟩ (by decide) (by decide)

end FnPosts
